import Mathlib

/-!
Shallow embedding of the TypePipe shell core (src/src/shell/{pty,queue,terminal}.rs)
and proofs of the specification claims about it.

Conventions of the embedding:
* Rust `String` / `&str` are Lean `String`; `str::trim` is `String.trim`
  (faithful for ASCII whitespace, which is all that occurs here).
* Fallible operations return `Except String α` (the `String` is the error
  message, with `anyhow::Context` modelled as prefixing the context text).
* OS / filesystem nondeterminism (read results, write outcomes, clock values)
  is passed in explicitly as an environment, and the side effects performed by
  the code (PTY writes, file removals, audit-log lines) are returned as data.
* Machine integers that never overflow in the modelled paths are `Nat`.
-/

namespace TypePipe

/-! ## types.rs -/

/-- Structure `CommandResult` from src/shell/types.rs. -/
structure CommandResult where
  output : String
  success : Bool
deriving Repr, DecidableEq

/-! ## pty.rs: PtySession -/

/-- Result of `portable_pty::Child::try_wait` on the child process, as the OS
reports it: still running (`Ok(None)`), exited with a status (`Ok(Some _)`),
or the poll itself failed (`Err`). -/
inductive ChildStatus where
  | running : ChildStatus
  | exited (code : Nat) : ChildStatus
  | pollError : ChildStatus
deriving Repr, DecidableEq

/-- Model of `child.try_wait()`: `Ok(None)` while running, `Ok(Some status)` once
exited, `Err` if the poll fails. -/
def tryWait : ChildStatus → Except Unit (Option Nat)
  | .running => .ok none
  | .exited c => .ok (some c)
  | .pollError => .error ()

/-- Function `PtySession::is_alive` (pty.rs line 117): `self.child.try_wait().is_ok()`. -/
def is_alive (child : ChildStatus) : Bool :=
  (tryWait child).toBool

/-- Outcome of one OS-level write+flush on the PTY writer, supplied by the
environment when `send_input` runs. -/
inductive SendOutcome where
  | ok : SendOutcome
  | writeErr (e : String) : SendOutcome
  | flushErr (e : String) : SendOutcome
deriving Repr, DecidableEq

/-- The state of `PtySession` that the claims are about: the optional owned
write handle plus the metadata fields.  The opaque OS resources
(`pty_parent`, `child`) are kept as the child's status, which is all
`is_alive` consults. -/
structure PtySession where
  session_id : String
  shell_path : String
  cols : Nat
  rows : Nat
  pty_writer : Option Unit
  child : ChildStatus
deriving Repr, DecidableEq

/-- Constructor `PtySession::new` (pty.rs line 45) on the success path: the writer taken
from the master is retained (`pty_writer: Some(writer)`). -/
def PtySession.make (session_id shell_path : String) (cols rows : Nat)
    (child : ChildStatus) : PtySession :=
  { session_id := session_id
    shell_path := shell_path
    cols := cols
    rows := rows
    pty_writer := some ()
    child := child }

/-- Method `PtySession::send_input` (pty.rs line 82).  If the writer is present the
write and flush run against the environment's outcome; otherwise it fails
with "PTY not initialized".  Returns the result together with the session
state afterwards (the session fields are untouched either way). -/
def PtySession.send_input (s : PtySession) (_input : String)
    (io : SendOutcome) : Except String Unit × PtySession :=
  match s.pty_writer with
  | some _ =>
    match io with
    | .ok => (.ok (), s)
    | .writeErr e => (.error ("Failed to write input to PTY parent: " ++ e), s)
    | .flushErr e => (.error ("Failed to flush PTY writer: " ++ e), s)
  | none => (.error "PTY not initialized", s)

/-- Method `PtySession::take_pty_writer` (pty.rs line 133): `self.pty_writer.take()`.
Returns the old handle and the session with the handle slot emptied. -/
def PtySession.take_pty_writer (s : PtySession) :
    Option Unit × PtySession :=
  (s.pty_writer, { s with pty_writer := none })

/-! ## pty.rs: PtySessionManager -/

/-- The PTY-level operations `process_queue_command` performs, in order. -/
inductive PtyOp where
  | send (bytes : String) : PtyOp
  | sleepMs (n : Nat) : PtyOp
  | readOutput : PtyOp
deriving Repr, DecidableEq

/-- Environment for one `process_queue_command` run: the outcome the session
reports for the locked `send_input`, and the outcome of
`get_available_output`. -/
structure MgrEnv where
  sendResult : Except String Unit
  readResult : Except String String
deriving Repr

/-- Method `PtySessionManager::process_queue_command` (pty.rs line 243): send
`command ++ "\n"` (propagating failure with context), sleep a fixed 200 ms,
read available output substituting "Command executed" on failure, and return
`success := true`.  The performed PTY operations are returned alongside. -/
def process_queue_command (env : MgrEnv) (command : String) :
    Except String CommandResult × List PtyOp :=
  match env.sendResult with
  | .error e =>
      (.error ("Failed to send queue command to terminal: " ++ e),
       [.send (command ++ "\n")])
  | .ok () =>
      let output := match env.readResult with
        | .ok o => o
        | .error _ => "Command executed"
      (.ok { output := output, success := true },
       [.send (command ++ "\n"), .sleepMs 200, .readOutput])

/-- Function `pty_manager_execute_and_wait` (pty.rs line 284): locks the manager and
delegates to `process_queue_command`; the `_timeout_ms` parameter is bound
but never consulted. -/
def pty_manager_execute_and_wait (env : MgrEnv) (command : String)
    (_timeout_ms : Nat) : Except String CommandResult × List PtyOp :=
  process_queue_command env command

/-! ## terminal.rs: typing arbitration -/

/-- Function `set_input_timeout` (terminal.rs line 201): stores `timeout_secs * 1000`
into `INPUT_TIMEOUT_MS`. -/
def set_input_timeout (timeout_secs : Nat) : Nat :=
  timeout_secs * 1000

/-- Function `is_user_typing` (terminal.rs line 218): with
`time_since_input = now.saturating_sub(last_input)` (on `Nat`, plain
subtraction), the user counts as typing iff `time_since_input ≤ timeout_ms`.
(The function also stores `USER_IS_TYPING`, which no other code reads.) -/
def is_user_typing (now last_input timeout_ms : Nat) : Bool :=
  if now - last_input > timeout_ms then false else true

/-! ## terminal.rs: queue-drain step -/

/-- Rust `str::trim`: drop leading and trailing whitespace characters.
(`Char.isWhitespace` matches Rust on all of ASCII, which is what the queue
files contain; exotic Unicode whitespace is out of scope.) -/
def rustTrim (s : String) : String :=
  ⟨((s.data.dropWhile Char.isWhitespace).reverse.dropWhile
      Char.isWhitespace).reverse⟩

/-- Outcome the OS reports for one `write_all` / `flush` attempt on the PTY
writer: success, a transient error (`WouldBlock` / `Interrupted`), or any
other I/O error. -/
inductive WriteOutcome where
  | ok : WriteOutcome
  | transient : WriteOutcome
  | fatal : WriteOutcome
deriving Repr, DecidableEq

/-- Result of the bounded retry loop. -/
inductive RetryResult where
  | success : RetryResult
  | gaveUp : RetryResult
  | fatal : RetryResult
deriving Repr, DecidableEq

/-- The `for attempt in 0..50` retry discipline of terminal.rs lines 329-443:
`f i` is the outcome of attempt `i`, `idx` the current attempt index and
`left` the number of attempts remaining (initially 50).  A transient failure
on the final attempt (`attempt == 49`, i.e. `left = 1` here) gives up inside
that attempt; a transient failure earlier sleeps 1 s and retries; any other
error is fatal; success ends the loop. -/
def retryLoop (f : Nat → WriteOutcome) (idx : Nat) : Nat → RetryResult
  | 0 => .gaveUp
  | left + 1 =>
    match f idx with
    | .ok => .success
    | .fatal => .fatal
    | .transient => if left = 0 then .gaveUp else retryLoop f (idx + 1) left

/-- Terminal outcome of injecting one command: the write retry loop, and on
write success the identical flush retry loop (terminal.rs lines 329-443). -/
inductive InjectOutcome where
  | success : InjectOutcome
  | gaveUpWrite : InjectOutcome
  | fatalWrite : InjectOutcome
  | gaveUpFlush : InjectOutcome
  | fatalFlush : InjectOutcome
deriving Repr, DecidableEq

/-- Compose the write retry loop with the flush retry loop, as the code nests
them: the flush loop runs only after a successful write. -/
def injectOutcome (wr fl : Nat → WriteOutcome) : InjectOutcome :=
  match retryLoop wr 0 50 with
  | .gaveUp => .gaveUpWrite
  | .fatal => .fatalWrite
  | .success =>
    match retryLoop fl 0 50 with
    | .gaveUp => .gaveUpFlush
    | .fatal => .fatalFlush
    | .success => .success

/-- Audit-log lines the drain step appends, abstracted to their kind and the
data they name (the wall-clock timestamp prefix is elided). -/
inductive LogEvent where
  | paused : LogEvent
  | resumed : LogEvent
  | processing (file cmd : String) : LogEvent
  | gaveUpWrite (file : String) : LogEvent
  | fatalWrite (file : String) : LogEvent
  | gaveUpFlush (file : String) : LogEvent
  | fatalFlush (file : String) : LogEvent
deriving Repr, DecidableEq

/-- One entry of the queue directory as the filesystem reports it during the
scan: its (resolved) file name, whether `path.is_file()`, the modification
time when `metadata` and `modified` both succeed, and the content when
`read_to_string` succeeds. -/
structure DirEntry where
  name : String
  isFile : Bool
  mtime : Option Nat
  content : Option String
deriving Repr, DecidableEq

/-- terminal.rs lines 286-295: collect `(path, modified)` for every entry
that is a regular file and whose metadata / mtime reads succeed. -/
def fileEntries (entries : List DirEntry) : List (DirEntry × Nat) :=
  entries.filterMap fun e =>
    if e.isFile then e.mtime.map fun t => (e, t) else none

/-- terminal.rs lines 297-300: `file_entries.sort_by(|a, b| a.1.cmp(&b.1))`
followed by `.first()` — sort ascending by modification time, pick the head.
Rust `slice::sort_by` is a stable sort, and a stable sort by a total
preorder key is a unique function of its input, so it is embedded here as
Mathlib's stable `List.insertionSort` on the mtime key. -/
def mtimeLE (a b : DirEntry × Nat) : Prop :=
  a.2 ≤ b.2

instance : DecidableRel mtimeLE :=
  fun a b => Nat.decLe a.2 b.2

instance : IsTotal (DirEntry × Nat) mtimeLE :=
  ⟨fun a b => Nat.le_total a.2 b.2⟩

instance : IsTrans (DirEntry × Nat) mtimeLE :=
  ⟨fun _ _ _ hab hbc => Nat.le_trans hab hbc⟩

/-- Sort the collected `(file, mtime)` pairs ascending by mtime and take the
first, as terminal.rs lines 297-300 do. -/
def selectOldest (entries : List DirEntry) : Option (DirEntry × Nat) :=
  (List.insertionSort mtimeLE (fileEntries entries)).head?

/-- Environment of one invocation of `process_next_queue_command`: the clock
and typing globals, whether opening the audit-log file succeeds this tick,
whether `fs::read_dir` succeeds, the directory contents, and the outcome of
each PTY write / flush attempt. -/
structure DrainEnv where
  now : Nat
  lastInput : Nat
  timeoutMs : Nat
  logOpenOk : Bool
  readDirOk : Bool
  entries : List DirEntry
  wr : Nat → WriteOutcome
  fl : Nat → WriteOutcome

/-- How the step returned: normally (`Ok(())`) or by the `panic!` inside
`unwrap_or_else` when opening the audit log fails (terminal.rs line 320). -/
inductive StepOutcome where
  | ok : StepOutcome
  | panicked : StepOutcome
deriving Repr, DecidableEq

/-- Observable effects of one drain step: how it returned, the audit lines
appended, the payloads successfully written to the PTY, how many queue files
were read, how many `remove_file` calls were made, and the value of the
`QUEUE_PAUSED_LOGGED` flag afterwards. -/
structure DrainResult where
  outcome : StepOutcome
  events : List LogEvent
  ptyWrites : List String
  readCalls : Nat
  removeCalls : Nat
  pausedLogged : Bool
deriving Repr, DecidableEq

/-- Function `process_next_queue_command` (terminal.rs lines 253-448), with the
global `QUEUE_PAUSED_LOGGED` flag threaded explicitly.  Modelling notes:
a `log_to_file` failure is absorbed by the code (`let _ =`), so a
paused/resumed line appears iff the log opens; the inline audit-log opens on
the processing path panic on failure (`unwrap_or_else(|_| panic!(..))`);
log writes after a successful open use `.ok()` and are absorbed; a failed
PTY write attempt transfers no payload, a successful one transfers the
payload once. -/
def process_next_queue_command (env : DrainEnv) (pausedLogged : Bool) :
    DrainResult :=
  if is_user_typing env.now env.lastInput env.timeoutMs then
    if pausedLogged then
      { outcome := .ok, events := [], ptyWrites := [], readCalls := 0
        removeCalls := 0, pausedLogged := true }
    else
      { outcome := .ok
        events := if env.logOpenOk then [.paused] else []
        ptyWrites := [], readCalls := 0, removeCalls := 0
        pausedLogged := true }
  else
    let resumeEvents : List LogEvent :=
      if pausedLogged then (if env.logOpenOk then [.resumed] else []) else []
    if !env.readDirOk then
      { outcome := .ok, events := resumeEvents, ptyWrites := []
        readCalls := 0, removeCalls := 0, pausedLogged := false }
    else
      match selectOldest env.entries with
      | none =>
        { outcome := .ok, events := resumeEvents, ptyWrites := []
          readCalls := 0, removeCalls := 0, pausedLogged := false }
      | some (e, _) =>
        match e.content with
        | none =>
          { outcome := .ok, events := resumeEvents, ptyWrites := []
            readCalls := 1, removeCalls := 0, pausedLogged := false }
        | some raw =>
          let command := rustTrim raw
          if !env.logOpenOk then
            { outcome := .panicked, events := resumeEvents, ptyWrites := []
              readCalls := 1, removeCalls := 0, pausedLogged := false }
          else
            let payload := command ++ "\r"
            let oc := injectOutcome env.wr env.fl
            { outcome := .ok
              events := resumeEvents ++ [.processing e.name command] ++
                (match oc with
                 | .success => []
                 | .gaveUpWrite => [.gaveUpWrite e.name]
                 | .fatalWrite => [.fatalWrite e.name]
                 | .gaveUpFlush => [.gaveUpFlush e.name]
                 | .fatalFlush => [.fatalFlush e.name])
              ptyWrites :=
                match oc with
                | .gaveUpWrite => []
                | .fatalWrite => []
                | _ => [payload]
              readCalls := 1
              removeCalls := 1
              pausedLogged := false }

/-! ## terminal.rs: bridge termination and raw-mode restore -/

/-- The event that wins the three-way `tokio::select!` race at
terminal.rs lines 179-191: an external Ctrl+C, the relay (PTY output) task
completing (its join result: an error means the task panicked or was
cancelled), or the input task completing (outer join result around the
task's own `Result`). -/
inductive BridgeEvent where
  | ctrlC : BridgeEvent
  | relayDone (join : Except Unit Unit) : BridgeEvent
  | inputDone (join : Except Unit (Except String Unit)) : BridgeEvent

/-- What `setup_interactive_pty` does after the select resolves: its return
value, and whether the raw-mode restore at terminal.rs lines 194-196 was
reached. -/
structure BridgeFinish where
  returned : Except String Unit
  rawRestoreAttempted : Bool

/-- The tail of `setup_interactive_pty` (terminal.rs lines 179-198).  The
`?` operators inside the select arms (lines 184 and 188) propagate an error
out of the whole function, returning before the
`if raw_mode_enabled { disable_raw_mode() }` block runs; otherwise that
block runs and the function returns the arm's `Ok(())` (or the
disable-raw-mode error). -/
def bridgeFinish (rawModeEnabled : Bool) (ev : BridgeEvent)
    (disableOk : Bool) : BridgeFinish :=
  let early : String → BridgeFinish := fun msg =>
    { returned := .error msg, rawRestoreAttempted := false }
  let finish : BridgeFinish :=
    if rawModeEnabled then
      { returned := if disableOk then .ok () else .error "Failed to disable raw mode"
        rawRestoreAttempted := true }
    else
      { returned := .ok (), rawRestoreAttempted := false }
  match ev with
  | .ctrlC => finish
  | .relayDone (.ok _) => finish
  | .relayDone (.error _) => early "PTY output task failed"
  | .inputDone (.ok (.ok _)) => finish
  | .inputDone (.ok (.error e)) => early e
  | .inputDone (.error _) => early "Input task join failed"

/-! ## queue.rs: batch queue processor -/

/-- One entry of the queue directory as seen by one `process_queue` pass:
the file name, the `read_to_string` result (`none` = read error), the OS
outcome of the session-level `send_input` if it is reached, and whether
`fs::remove_file` succeeds if it is reached. -/
structure QEntry where
  name : String
  content : Option String
  sendOutcome : SendOutcome
  removeOk : Bool
deriving Repr, DecidableEq

/-- Audit-log lines `process_queue` submits to `log_message`, abstracted to
their kind and the file they name (timestamps elided; `log_message`'s own
failures are ignored by the code via `let _ =`).  There is no send-error
line: the match arm at queue.rs lines 112-123 that would log one is
unreachable, because the `?` on `send_input` at line 86 exits
`process_queue` before `result` could ever hold an `Err`. -/
inductive QLog where
  | processing (file cmd : String) : QLog
  | readError (file : String) : QLog
  | removeWarning (file : String) : QLog
  | completed (file : String) : QLog
deriving Repr, DecidableEq

/-- Persistent side effects of one `process_queue` pass: the log lines, the
files whose removal succeeded, and the files for which `remove_file` was
called at all.  These survive even when the pass aborts; the results map,
by contrast, is a local that is only surfaced on the `Ok` return. -/
structure QueueEffects where
  logs : List QLog
  removed : List String
  removeCalls : List String
deriving Repr, DecidableEq

/-- The `while let Some(entry)` loop of `process_queue` (queue.rs lines
64-132).  For each entry in listing order: a failed `read_to_string` logs a
read-error line and moves on; on read success the processing line is logged
and `trim(content) ++ "\n"` is sent through the locked session.  The `?` on
`send_input` (queue.rs line 86) sits in a plain block, so it propagates out
of `process_queue` itself: a send failure aborts the pass right there —
the local results map is dropped, no failure is logged or recorded, the
file stays, and the remaining entries are never visited.  On send success a
success result is inserted and `remove_file` is called, logging completion
or a removal warning.  Returns the side effects performed together with the
function's return value. -/
def process_queue_loop (session : PtySession) :
    List QEntry → QueueEffects × Except String (List (String × CommandResult))
  | [] => ({ logs := [], removed := [], removeCalls := [] }, .ok [])
  | qe :: rest =>
    match qe.content with
    | none =>
      let r := process_queue_loop session rest
      ({ logs := .readError qe.name :: r.1.logs
         removed := r.1.removed, removeCalls := r.1.removeCalls }, r.2)
    | some raw =>
      let command := rustTrim raw
      match (session.send_input (command ++ "\n") qe.sendOutcome).1 with
      | .error msg =>
        ({ logs := [.processing qe.name command]
           removed := [], removeCalls := [] }, .error msg)
      | .ok _ =>
        let r := process_queue_loop session rest
        let res : CommandResult :=
          { output := "Command sent to shell", success := true }
        if qe.removeOk then
          ({ logs := .processing qe.name command ::
               .completed qe.name :: r.1.logs
             removed := qe.name :: r.1.removed
             removeCalls := qe.name :: r.1.removeCalls },
           r.2.map fun m => (qe.name, res) :: m)
        else
          ({ logs := .processing qe.name command ::
               .removeWarning qe.name :: r.1.logs
             removed := r.1.removed
             removeCalls := qe.name :: r.1.removeCalls },
           r.2.map fun m => (qe.name, res) :: m)

/-- Method `PtyQueueProcessor::process_queue` (queue.rs lines 55-135): a
failed directory read propagates with context (`?` aborts the pass before
any entry is touched); otherwise the loop above runs — itself aborting at
the first send failure.  (A mid-iteration `next_entry` error, which would
also abort via `?`, is subsumed into `dirOk` — the listing either yields
all entries or fails.) -/
def process_queue (session : PtySession) (dirOk : Bool)
    (entries : List QEntry) :
    QueueEffects × Except String (List (String × CommandResult)) :=
  if dirOk then process_queue_loop session entries
  else ({ logs := [], removed := [], removeCalls := [] },
        .error "Failed to read queue directory")

/-- Closed form of the map contribution of one entry in a pass where every
reached send succeeds: a read-ok entry contributes its success pair, a
read-fail entry nothing.  (A proven shape of `process_queue_loop` — see
`queue_loop_eq_of_all_ok` — not a separate embedding.) -/
def entryPairOk (qe : QEntry) : Option (String × CommandResult) :=
  qe.content.map fun _ =>
    (qe.name, { output := "Command sent to shell", success := true })

/-- Closed form of the log lines of one entry in an all-sends-succeed pass. -/
def entryLogsOk (qe : QEntry) : List QLog :=
  match qe.content with
  | none => [.readError qe.name]
  | some raw =>
    if qe.removeOk then
      [.processing qe.name (rustTrim raw), .completed qe.name]
    else
      [.processing qe.name (rustTrim raw), .removeWarning qe.name]

/-- Closed form of the successful removals of one entry in an
all-sends-succeed pass. -/
def entryRemovedOk (qe : QEntry) : List String :=
  match qe.content with
  | none => []
  | some _ => if qe.removeOk then [qe.name] else []

/-- Closed form of the `remove_file` calls of one entry in an
all-sends-succeed pass. -/
def entryRemoveCallsOk (qe : QEntry) : List String :=
  match qe.content with
  | none => []
  | some _ => [qe.name]

/-! ## Helper lemmas about the retry loop -/

/-- If every attempt in the window is transient, the retry loop gives up. -/
theorem retryLoop_gaveUp (f : Nat → WriteOutcome) :
    ∀ left idx, (∀ i, idx ≤ i → i < idx + left → f i = .transient) →
      retryLoop f idx left = .gaveUp := by
  intro left
  induction left with
  | zero => intro idx _; rfl
  | succ n ih =>
    intro idx h
    have hidx : f idx = .transient := h idx (Nat.le_refl _) (by omega)
    by_cases hn : n = 0
    · simp [retryLoop, hidx, hn]
    · simp only [retryLoop, hidx]
      rw [if_neg hn]
      exact ih (idx + 1) (fun i h1 h2 => h i (by omega) (by omega))

/-- If the first non-transient attempt in the window is attempt `idx + k`,
the retry loop ends there: success on `.ok`, fatal otherwise. -/
theorem retryLoop_firstNontransient (f : Nat → WriteOutcome) :
    ∀ k idx left, k < left →
      (∀ i, idx ≤ i → i < idx + k → f i = .transient) →
      f (idx + k) ≠ .transient →
      retryLoop f idx left =
        (if f (idx + k) = .ok then .success else .fatal) := by
  intro k
  induction k with
  | zero =>
    intro idx left hlt htr hnt
    match left, hlt with
    | n + 1, _ =>
      simp only [Nat.add_zero] at hnt ⊢
      have hcases : f idx = .ok ∨ f idx = .fatal := by
        cases hf : f idx with
        | ok => exact Or.inl rfl
        | transient => exact absurd hf hnt
        | fatal => exact Or.inr rfl
      rcases hcases with hf | hf <;> simp [retryLoop, hf]
  | succ m ih =>
    intro idx left hlt htr hnt
    match left, hlt with
    | n + 1, hlt =>
      have hidx : f idx = .transient := htr idx (Nat.le_refl _) (by omega)
      have hn : n ≠ 0 := by omega
      simp only [retryLoop, hidx]
      rw [if_neg hn]
      have hk : idx + 1 + m = idx + (m + 1) := by omega
      rw [ih (idx + 1) n (by omega)
        (fun i h1 h2 => htr i (by omega) (by omega))
        (by rw [hk]; exact hnt)]
      rw [hk]

/-! ## Helper lemmas about the queue-file selection -/

/-- Membership in the collected `(file, mtime)` list unpacks to: the entry is
listed, is a regular file, and its metadata read succeeded with that mtime. -/
theorem fileEntries_mem (entries : List DirEntry) (e : DirEntry) (t : Nat)
    (h : (e, t) ∈ fileEntries entries) :
    e ∈ entries ∧ e.isFile = true ∧ e.mtime = some t := by
  unfold fileEntries at h
  rcases List.mem_filterMap.mp h with ⟨a, ha, hf⟩
  by_cases hif : a.isFile
  · rw [if_pos hif] at hf
    rcases Option.map_eq_some'.mp hf with ⟨t', ht', heq⟩
    have hae : a = e := congrArg Prod.fst heq
    have htt : t' = t := congrArg Prod.snd heq
    subst hae; subst htt
    exact ⟨ha, hif, ht'⟩
  · rw [if_neg hif] at hf
    exact absurd hf (Option.some_ne_none _).symm

/-- The selected queue file is one of the collected files and has the
smallest modification time among them. -/
theorem selectOldest_min (entries : List DirEntry) (e : DirEntry) (t : Nat)
    (h : selectOldest entries = some (e, t)) :
    (e, t) ∈ fileEntries entries ∧ ∀ p ∈ fileEntries entries, t ≤ p.2 := by
  have hperm := List.perm_insertionSort mtimeLE (fileEntries entries)
  have hsorted := List.sorted_insertionSort mtimeLE (fileEntries entries)
  unfold selectOldest at h
  cases hsl : List.insertionSort mtimeLE (fileEntries entries) with
  | nil => rw [hsl] at h; exact absurd h (by simp)
  | cons a rest =>
    rw [hsl] at h
    simp only [List.head?_cons, Option.some.injEq] at h
    subst h
    rw [hsl] at hperm hsorted
    refine ⟨hperm.mem_iff.mp (List.mem_cons_self _ _), ?_⟩
    intro p hp
    rcases List.mem_cons.mp (hperm.mem_iff.mpr hp) with heq | hrest
    · rw [heq]
    · exact (List.pairwise_cons.mp hsorted).1 p hrest

/-! ## Helper lemmas about the drain step -/

/-- Shape of the drain step while the user counts as typing: nothing is
read, written or removed; the pause line appears exactly on the
flag-clear-to-set transition (and only when the log opens). -/
theorem drain_skip (env : DrainEnv) (flag : Bool)
    (htyp : is_user_typing env.now env.lastInput env.timeoutMs = true) :
    process_next_queue_command env flag =
      { outcome := .ok
        events := if flag then [] else if env.logOpenOk then [.paused] else []
        ptyWrites := [], readCalls := 0, removeCalls := 0
        pausedLogged := true } := by
  cases flag <;> simp [process_next_queue_command, htyp]

/-- Shape of the drain step when the user is not typing and a queue file is
selected, read, and the audit log opens: one processing line (after a
resumed line iff the flag was set), the injection retry discipline, one
read and exactly one `remove_file` call, flag cleared. -/
theorem drain_eq_inject (env : DrainEnv) (flag : Bool) (e : DirEntry)
    (t : Nat) (raw : String)
    (htyp : is_user_typing env.now env.lastInput env.timeoutMs = false)
    (hdir : env.readDirOk = true)
    (hsel : selectOldest env.entries = some (e, t))
    (hraw : e.content = some raw)
    (hlog : env.logOpenOk = true) :
    process_next_queue_command env flag =
      { outcome := .ok
        events := (if flag then [LogEvent.resumed] else []) ++
          [.processing e.name (rustTrim raw)] ++
          (match injectOutcome env.wr env.fl with
           | .success => []
           | .gaveUpWrite => [.gaveUpWrite e.name]
           | .fatalWrite => [.fatalWrite e.name]
           | .gaveUpFlush => [.gaveUpFlush e.name]
           | .fatalFlush => [.fatalFlush e.name])
        ptyWrites :=
          (match injectOutcome env.wr env.fl with
           | .gaveUpWrite => []
           | .fatalWrite => []
           | _ => [rustTrim raw ++ "\r"])
        readCalls := 1, removeCalls := 1, pausedLogged := false } := by
  cases flag <;>
    simp [process_next_queue_command, htyp, hdir, hsel, hraw, hlog]

/-! ## Concrete fixtures used by witnesses and counterexamples -/

/-- An environment in which the user is idle, one readable queue file is
present, all PTY writes succeed, but the audit log cannot be opened. -/
def envC6 : DrainEnv :=
  { now := 100000, lastInput := 0, timeoutMs := 30000
    logOpenOk := false, readDirOk := true
    entries := [{ name := "cmd-1", isFile := true, mtime := some 5
                  content := some "echo hi\n" }]
    wr := fun _ => .ok, fl := fun _ => .ok }

/-- Manager environment in which the send and the output read succeed. -/
def mgrEnvOk : MgrEnv :=
  { sendResult := .ok (), readResult := .ok "hi" }

/-! ## Claims -/

/-- C5: the claim says raw mode, once enabled, is restored before
`setup_interactive_pty` returns on every termination path.  The code
violates this: the `?` in the input-task select arm (terminal.rs line 188)
propagates the input task's own error out of the function before the
`disable_raw_mode` block (lines 194-196) is reached, so on an input-task
failure the terminal is left in raw mode.  This theorem evaluates the
embedded termination logic: with raw mode enabled, an input-task error
skips the restore, while the interrupt and relay-completion paths reach it. -/
theorem c5_raw_mode_restore :
    (bridgeFinish true
      (BridgeEvent.inputDone (Except.ok (Except.error "Failed to write to PTY")))
      true).rawRestoreAttempted = false ∧
    (bridgeFinish true BridgeEvent.ctrlC true).rawRestoreAttempted = true ∧
    (bridgeFinish true (BridgeEvent.relayDone (Except.ok ()))
      true).rawRestoreAttempted = true :=
  ⟨rfl, rfl, rfl⟩

/-- C8: the claim says `is_alive` returns true while the child has not
exited and false once it has.  The code computes `try_wait().is_ok()`,
which is `true` both for a running child (`Ok(None)`) and for an exited
child (`Ok(Some status)`): an exited child still reports alive. -/
theorem c8_is_alive_after_exit :
    is_alive (ChildStatus.exited 0) = true ∧
    is_alive ChildStatus.running = true ∧
    is_alive ChildStatus.pollError = false :=
  ⟨rfl, rfl, rfl⟩

/-- C9: the write handle is present from creation until `take_pty_writer`
removes it; taking yields the handle at most once (a second take returns
nothing); after a take, `send_input` fails with "PTY not initialized" and
leaves the session unchanged (and `send_input` never mutates the session). -/
theorem c9_write_handle_once (sid sp : String) (c r : Nat) (ch : ChildStatus)
    (s : PtySession) (io : SendOutcome) (input : String) :
    (PtySession.make sid sp c r ch).pty_writer = some () ∧
    (s.take_pty_writer).1 = s.pty_writer ∧
    (s.take_pty_writer).2.pty_writer = none ∧
    ((s.take_pty_writer).2.take_pty_writer).1 = none ∧
    ((s.take_pty_writer).2.send_input input io).1 =
      Except.error "PTY not initialized" ∧
    ((s.take_pty_writer).2.send_input input io).2 = (s.take_pty_writer).2 ∧
    (s.send_input input io).2 = s := by
  obtain ⟨sid', sp', c', r', w, ch'⟩ := s
  refine ⟨rfl, rfl, rfl, rfl, rfl, rfl, ?_⟩
  cases w <;> cases io <;> rfl

/-- C10: `pty_manager_execute_and_wait` ignores its `timeout_ms` argument:
two invocations with the same environment and command but arbitrary
timeouts perform the same PTY operations and return the same result, which
is exactly `process_queue_command`'s — and on a successful send that means
a fixed 200 ms sleep and `success := true`. -/
theorem c10_timeout_ignored (env : MgrEnv) (cmd : String) (t1 t2 : Nat) :
    pty_manager_execute_and_wait env cmd t1 =
      pty_manager_execute_and_wait env cmd t2 ∧
    pty_manager_execute_and_wait env cmd t1 = process_queue_command env cmd ∧
    (env.sendResult = .ok () →
      (pty_manager_execute_and_wait env cmd t1).2 =
        [.send (cmd ++ "\n"), .sleepMs 200, .readOutput] ∧
      ∃ res, (pty_manager_execute_and_wait env cmd t1).1 = .ok res ∧
        res.success = true) := by
  refine ⟨rfl, rfl, fun hsend => ?_⟩
  unfold pty_manager_execute_and_wait process_queue_command
  rw [hsend]
  exact ⟨rfl, _, rfl, rfl⟩

/-- Witness for C10: at a concrete environment and timeouts 5 and 700 the
results coincide and the success flag is set. -/
theorem c10_timeout_ignored_witness :
    pty_manager_execute_and_wait mgrEnvOk "ls" 5 =
      pty_manager_execute_and_wait mgrEnvOk "ls" 700 ∧
    ∃ res, (pty_manager_execute_and_wait mgrEnvOk "ls" 5).1 = .ok res ∧
      res.success = true :=
  ⟨(c10_timeout_ignored mgrEnvOk "ls" 5 700).1,
   ((c10_timeout_ignored mgrEnvOk "ls" 5 700).2.2 rfl).2⟩

/-- C6 counterexample: the claim says the drain step absorbs every failure
and always returns Ok, never panicking.  But when a queue file has been
selected and read and the audit log cannot be opened, the
`unwrap_or_else(|_| panic!("Failed to open log file"))` at terminal.rs
line 320 panics: in `envC6` the step panics instead of returning Ok. -/
theorem c6_drain_can_panic :
    (process_next_queue_command envC6 false).outcome = StepOutcome.panicked := by
  decide

/-- C6 amended: the drain step absorbs read-dir, file-read, PTY write/flush
and audit-log *write* failures and returns Ok — a panic can only arise from
a failed audit-log *open*; whenever the audit log opens, the step returns
Ok on every input. -/
theorem c6_drain_absorbs_failures (env : DrainEnv) (flag : Bool) :
    (env.logOpenOk = true →
      (process_next_queue_command env flag).outcome = StepOutcome.ok) ∧
    ((process_next_queue_command env flag).outcome = StepOutcome.panicked →
      env.logOpenOk = false) := by
  by_cases htyp : is_user_typing env.now env.lastInput env.timeoutMs = true
  · rw [drain_skip env flag htyp]
    exact ⟨fun _ => rfl, fun h => absurd h (by simp)⟩
  · have htyp' : is_user_typing env.now env.lastInput env.timeoutMs = false := by
      simpa using htyp
    by_cases hdir : env.readDirOk = true
    · cases hsel : selectOldest env.entries with
      | none => constructor <;> simp [process_next_queue_command, htyp', hdir, hsel]
      | some p =>
        obtain ⟨e, t⟩ := p
        cases hraw : e.content with
        | none =>
          constructor <;> simp [process_next_queue_command, htyp', hdir, hsel, hraw]
        | some raw =>
          by_cases hlog : env.logOpenOk = true
          · rw [drain_eq_inject env flag e t raw htyp' hdir hsel hraw hlog]
            exact ⟨fun _ => rfl, fun h => absurd h (by simp)⟩
          · have hlog' : env.logOpenOk = false := by simpa using hlog
            constructor <;>
              simp [process_next_queue_command, htyp', hdir, hsel, hraw, hlog']
    · have hdir' : env.readDirOk = false := by simpa using hdir
      constructor <;> simp [process_next_queue_command, htyp', hdir']

/-- Witness for C6's amended theorem: with the audit log openable (the
`envC6` fixture flipped to an openable log) the step returns Ok. -/
theorem c6_drain_absorbs_failures_witness :
    (process_next_queue_command { envC6 with logOpenOk := true }
      false).outcome = StepOutcome.ok :=
  (c6_drain_absorbs_failures { envC6 with logOpenOk := true } false).1 rfl

/-- Converse of `fileEntries_mem`: every listed regular file with readable
metadata appears in the collected list. -/
theorem fileEntries_mem_of (entries : List DirEntry) (e : DirEntry) (t : Nat)
    (h : e ∈ entries) (hf : e.isFile = true) (hm : e.mtime = some t) :
    (e, t) ∈ fileEntries entries := by
  unfold fileEntries
  exact List.mem_filterMap.mpr ⟨e, h, by simp [hf, hm]⟩

/-- In every branch the drain step performs at most one successful PTY
payload write. -/
theorem drain_writes_le_one (env : DrainEnv) (flag : Bool) :
    (process_next_queue_command env flag).ptyWrites.length ≤ 1 := by
  unfold process_next_queue_command
  repeat' split
  all_goals cases injectOutcome env.wr env.fl <;> simp

/-- In every branch the drain step calls `remove_file` at most once. -/
theorem drain_removes_le_one (env : DrainEnv) (flag : Bool) :
    (process_next_queue_command env flag).removeCalls ≤ 1 := by
  unfold process_next_queue_command
  repeat' split
  all_goals cases injectOutcome env.wr env.fl <;> simp

/-- A concrete queue file with a trailing newline, used by the witnesses. -/
def entryC1 : DirEntry :=
  { name := "cmd-1", isFile := true, mtime := some 5
    content := some "echo hi\n" }

/-- An idle-user environment in which `entryC1` is the only queue file and
everything succeeds. -/
def envC1 : DrainEnv :=
  { now := 100000, lastInput := 0, timeoutMs := 30000
    logOpenOk := true, readDirOk := true
    entries := [entryC1]
    wr := fun _ => .ok, fl := fun _ => .ok }

/-- C1: every byte string the drain step writes to the PTY equals the
selected file's contents trimmed of surrounding whitespace followed by
exactly one carriage return (no line feed appended); in particular a file
containing "echo hi\n" yields the bytes "echo hi\r". -/
theorem c1_trimmed_cr_bytes (env : DrainEnv) (flag : Bool) (e : DirEntry)
    (t : Nat) (raw : String)
    (hsel : selectOldest env.entries = some (e, t))
    (hraw : e.content = some raw) :
    (∀ b ∈ (process_next_queue_command env flag).ptyWrites,
       b = rustTrim raw ++ "\r") ∧
    rustTrim "echo hi\n" ++ "\r" = "echo hi\r" := by
  refine ⟨?_, by decide⟩
  by_cases htyp : is_user_typing env.now env.lastInput env.timeoutMs = true
  · rw [drain_skip env flag htyp]
    intro b hb
    simp at hb
  · have htyp' : is_user_typing env.now env.lastInput env.timeoutMs = false := by
      simpa using htyp
    by_cases hdir : env.readDirOk = true
    · by_cases hlog : env.logOpenOk = true
      · rw [drain_eq_inject env flag e t raw htyp' hdir hsel hraw hlog]
        intro b hb
        simp only at hb
        cases hoc : injectOutcome env.wr env.fl <;> rw [hoc] at hb <;>
          simp at hb <;> exact hb
      · have hlog' : env.logOpenOk = false := by simpa using hlog
        intro b hb
        simp [process_next_queue_command, htyp', hdir, hsel, hraw, hlog'] at hb
    · have hdir' : env.readDirOk = false := by simpa using hdir
      intro b hb
      simp [process_next_queue_command, htyp', hdir'] at hb

/-- Witness for C1: in the concrete environment `envC1`, the written bytes
are "echo hi\r". -/
theorem c1_trimmed_cr_bytes_witness :
    (∀ b ∈ (process_next_queue_command envC1 false).ptyWrites,
       b = rustTrim "echo hi\n" ++ "\r") ∧
    rustTrim "echo hi\n" ++ "\r" = "echo hi\r" :=
  c1_trimmed_cr_bytes envC1 false entryC1 5 "echo hi\n" (by decide) (by decide)

/-- Total number of successful PTY payload writes over a run of consecutive
drain ticks, threading the pause flag from tick to tick. -/
def drainRun : List DrainEnv → Bool → Nat
  | [], _ => 0
  | env :: rest, flag =>
    let r := process_next_queue_command env flag
    r.ptyWrites.length + drainRun rest r.pausedLogged

/-- C2: each drain invocation writes at most one command (and calls
`remove_file` at most once); the selected file is a listed regular file with
readable metadata whose modification time is minimal among all such files;
consequently a run of k consecutive ticks injects at most k commands, so N
simultaneously deposited files need at least N one-second windows. -/
theorem c2_at_most_one_per_tick (env : DrainEnv) (flag : Bool) :
    (process_next_queue_command env flag).ptyWrites.length ≤ 1 ∧
    (process_next_queue_command env flag).removeCalls ≤ 1 ∧
    (∀ e t, selectOldest env.entries = some (e, t) →
       e ∈ env.entries ∧ e.isFile = true ∧ e.mtime = some t ∧
       ∀ e' t', e' ∈ env.entries → e'.isFile = true → e'.mtime = some t' →
         t ≤ t') ∧
    (∀ envs flag', drainRun envs flag' ≤ envs.length) := by
  refine ⟨drain_writes_le_one env flag, drain_removes_le_one env flag,
    ?_, ?_⟩
  · intro e t hsel
    obtain ⟨hmem, hmin⟩ := selectOldest_min env.entries e t hsel
    obtain ⟨hin, hfile, hmt⟩ := fileEntries_mem env.entries e t hmem
    refine ⟨hin, hfile, hmt, ?_⟩
    intro e' t' hin' hfile' hmt'
    exact hmin (e', t') (fileEntries_mem_of env.entries e' t' hin' hfile' hmt')
  · intro envs
    induction envs with
    | nil => intro flag'; simp [drainRun]
    | cons x xs ih =>
      intro flag'
      simp only [drainRun, List.length_cons]
      have h1 := drain_writes_le_one x flag'
      have h2 := ih (process_next_queue_command x flag').pausedLogged
      omega

/-- Witness for C2: in `envC1` exactly the one oldest file is selected and
its mtime is minimal. -/
theorem c2_at_most_one_per_tick_witness :
    entryC1 ∈ envC1.entries ∧ entryC1.isFile = true ∧
    entryC1.mtime = some 5 :=
  let h := (c2_at_most_one_per_tick envC1 false).2.2.1 entryC1 5 (by decide)
  ⟨h.1, h.2.1, h.2.2.1⟩

/-- On the first non-skipped tick with the pause flag set and the log
openable, the drain appends exactly one resumed line and clears the flag;
with the flag clear no resumed line is ever appended. -/
theorem drain_resumed_once (env : DrainEnv)
    (htyp : is_user_typing env.now env.lastInput env.timeoutMs = false)
    (hlog : env.logOpenOk = true) :
    (process_next_queue_command env true).events.count LogEvent.resumed = 1 ∧
    (process_next_queue_command env true).pausedLogged = false ∧
    LogEvent.resumed ∉ (process_next_queue_command env false).events := by
  by_cases hdir : env.readDirOk = true
  · cases hsel : selectOldest env.entries with
    | none =>
      refine ⟨?_, ?_, ?_⟩ <;>
        simp [process_next_queue_command, htyp, hdir, hsel, hlog]
    | some p =>
      obtain ⟨e, t⟩ := p
      cases hraw : e.content with
      | none =>
        refine ⟨?_, ?_, ?_⟩ <;>
          simp [process_next_queue_command, htyp, hdir, hsel, hraw, hlog]
      | some raw =>
        rw [drain_eq_inject env true e t raw htyp hdir hsel hraw hlog,
          drain_eq_inject env false e t raw htyp hdir hsel hraw hlog]
        refine ⟨?_, rfl, ?_⟩
        · cases injectOutcome env.wr env.fl <;>
            simp [List.count_append, List.count_cons]
        · cases injectOutcome env.wr env.fl <;> simp
  · have hdir' : env.readDirOk = false := by simpa using hdir
    refine ⟨?_, ?_, ?_⟩ <;>
      simp [process_next_queue_command, htyp, hdir', hlog]

/-- C3: after a keystroke at time T with configured idle timeout S seconds,
every drain tick at a time in [T, T+1000·S) ms counts as typing and skips
draining entirely — nothing read, written or removed — appending one
paused line exactly when the sticky flag was clear (and setting it), and
appending nothing when it was already set; a tick strictly past the
timeout counts as not typing, and, with the flag set, appends exactly one
resumed line and clears the flag. -/
theorem c3_idle_window (T S : Nat) (env : DrainEnv) (flag : Bool)
    (hlast : env.lastInput = T)
    (htmo : env.timeoutMs = set_input_timeout S) :
    (T ≤ env.now → env.now < T + set_input_timeout S →
       is_user_typing env.now env.lastInput env.timeoutMs = true ∧
       process_next_queue_command env flag =
         { outcome := .ok
           events := if flag then [] else if env.logOpenOk then [.paused] else []
           ptyWrites := [], readCalls := 0, removeCalls := 0
           pausedLogged := true }) ∧
    (T + set_input_timeout S < env.now →
       is_user_typing env.now env.lastInput env.timeoutMs = false ∧
       (env.logOpenOk = true →
         (process_next_queue_command env true).events.count
           LogEvent.resumed = 1 ∧
         (process_next_queue_command env true).pausedLogged = false ∧
         LogEvent.resumed ∉ (process_next_queue_command env false).events)) := by
  constructor
  · intro h1 h2
    have htyp : is_user_typing env.now env.lastInput env.timeoutMs = true := by
      simp only [is_user_typing, hlast, htmo, set_input_timeout] at h2 ⊢
      have : ¬ env.now - T > S * 1000 := by omega
      simp [this]
    exact ⟨htyp, drain_skip env flag htyp⟩
  · intro h3
    have htyp : is_user_typing env.now env.lastInput env.timeoutMs = false := by
      simp only [is_user_typing, hlast, htmo, set_input_timeout] at h3 ⊢
      have : env.now - T > S * 1000 := by omega
      simp [this]
    exact ⟨htyp, fun hlog => drain_resumed_once env htyp hlog⟩

/-- Witness for C3: with a keystroke at T = 1000 ms and a 30 s timeout, a
tick at 20000 ms skips and logs the pause; a tick at 40000 ms would resume. -/
theorem c3_idle_window_witness :
    is_user_typing 20000 1000 (set_input_timeout 30) = true ∧
    process_next_queue_command
      { envC1 with now := 20000, lastInput := 1000
                   timeoutMs := set_input_timeout 30 } false =
      { outcome := .ok, events := [.paused], ptyWrites := []
        readCalls := 0, removeCalls := 0, pausedLogged := true } := by
  have h := (c3_idle_window 1000 30
    { envC1 with now := 20000, lastInput := 1000
                 timeoutMs := set_input_timeout 30 } false rfl rfl).1
    (by decide) (by decide)
  exact ⟨h.1, h.2⟩

/-- C4: the injection retry discipline.  Whenever a queue file reaches the
injection stage: (i) the file is deleted (one `remove_file` call) in every
terminal outcome and the step returns normally; (ii) 50 consecutive
transient write failures produce exactly one gave-up entry naming the file
and no PTY payload; (iii) a non-transient write error after any run of
transient ones produces exactly one fatal-write entry, no payload, and the
same single deletion; (iv) once the write succeeds the identical 50-attempt
discipline governs the flush: all-transient flushes give up with one
gave-up-flush entry, and a successful flush leaves just the processing
entry, the payload having been written once. -/
theorem c4_retry_discipline (env : DrainEnv) (flag : Bool) (e : DirEntry)
    (t : Nat) (raw : String)
    (htyp : is_user_typing env.now env.lastInput env.timeoutMs = false)
    (hdir : env.readDirOk = true)
    (hsel : selectOldest env.entries = some (e, t))
    (hraw : e.content = some raw)
    (hlog : env.logOpenOk = true) :
    (process_next_queue_command env flag).removeCalls = 1 ∧
    (process_next_queue_command env flag).outcome = StepOutcome.ok ∧
    ((∀ i, i < 50 → env.wr i = .transient) →
       (process_next_queue_command env flag).events.count
         (LogEvent.gaveUpWrite e.name) = 1 ∧
       (process_next_queue_command env flag).ptyWrites = []) ∧
    (∀ k, k < 50 → (∀ i, i < k → env.wr i = .transient) →
       env.wr k = .fatal →
       (process_next_queue_command env flag).events.count
         (LogEvent.fatalWrite e.name) = 1 ∧
       (process_next_queue_command env flag).ptyWrites = []) ∧
    (∀ k, k < 50 → (∀ i, i < k → env.wr i = .transient) →
       env.wr k = .ok →
       (process_next_queue_command env flag).ptyWrites =
         [rustTrim raw ++ "\r"] ∧
       ((∀ j, j < 50 → env.fl j = .transient) →
          (process_next_queue_command env flag).events.count
            (LogEvent.gaveUpFlush e.name) = 1) ∧
       (∀ m, m < 50 → (∀ j, j < m → env.fl j = .transient) →
          env.fl m = .ok →
          (process_next_queue_command env flag).events =
            (if flag then [LogEvent.resumed] else []) ++
            [.processing e.name (rustTrim raw)])) := by
  rw [drain_eq_inject env flag e t raw htyp hdir hsel hraw hlog]
  refine ⟨rfl, rfl, ?_, ?_, ?_⟩
  · intro hwr
    have hro : retryLoop env.wr 0 50 = .gaveUp :=
      retryLoop_gaveUp env.wr 50 0 (fun i _ h2 => hwr i (by omega))
    have hio : injectOutcome env.wr env.fl = .gaveUpWrite := by
      unfold injectOutcome; rw [hro]
    cases flag <;> simp [hio, List.count_append, List.count_cons]
  · intro k hk htr hfat
    have hro : retryLoop env.wr 0 50 = .fatal := by
      rw [retryLoop_firstNontransient env.wr k 0 50 hk
        (fun i _ h2 => htr i (by omega))
        (by rw [Nat.zero_add, hfat]; intro h; cases h)]
      rw [Nat.zero_add, hfat]
      rfl
    have hio : injectOutcome env.wr env.fl = .fatalWrite := by
      unfold injectOutcome; rw [hro]
    cases flag <;> simp [hio, List.count_append, List.count_cons]
  · intro k hk htr hok
    have hro : retryLoop env.wr 0 50 = .success := by
      rw [retryLoop_firstNontransient env.wr k 0 50 hk
        (fun i _ h2 => htr i (by omega))
        (by rw [Nat.zero_add, hok]; intro h; cases h)]
      rw [Nat.zero_add, hok]
      rfl
    refine ⟨?_, ?_, ?_⟩
    · unfold injectOutcome
      rw [hro]
      cases retryLoop env.fl 0 50 <;> rfl
    · intro hflj
      have hfl : retryLoop env.fl 0 50 = .gaveUp :=
        retryLoop_gaveUp env.fl 50 0 (fun j _ h2 => hflj j (by omega))
      have hio : injectOutcome env.wr env.fl = .gaveUpFlush := by
        unfold injectOutcome; rw [hro, hfl]
      cases flag <;> simp [hio, List.count_append, List.count_cons]
    · intro m hm htrm hokm
      have hfl : retryLoop env.fl 0 50 = .success := by
        rw [retryLoop_firstNontransient env.fl m 0 50 hm
          (fun j _ h2 => htrm j (by omega))
          (by rw [Nat.zero_add, hokm]; intro h; cases h)]
        rw [Nat.zero_add, hokm]
        rfl
      have hio : injectOutcome env.wr env.fl = .success := by
        unfold injectOutcome; rw [hro, hfl]
      cases flag <;> simp [hio]

/-- Witness for C4: in an environment whose PTY writes always fail
transiently, the drain on `entryC1` deletes the file once, returns Ok, logs
exactly one gave-up entry naming it, and writes nothing to the PTY. -/
theorem c4_retry_discipline_witness :
    (process_next_queue_command
      { envC1 with wr := fun _ => .transient } false).removeCalls = 1 ∧
    (process_next_queue_command
      { envC1 with wr := fun _ => .transient } false).events.count
        (LogEvent.gaveUpWrite "cmd-1") = 1 ∧
    (process_next_queue_command
      { envC1 with wr := fun _ => .transient } false).ptyWrites = [] := by
  have h := c4_retry_discipline { envC1 with wr := fun _ => .transient }
    false entryC1 5 "echo hi\n" (by decide) rfl (by decide) rfl rfl
  have hg := h.2.2.1 (fun i _ => rfl)
  exact ⟨h.1, hg.1, hg.2⟩

/-! ## Helper lemmas about the batch queue pass -/

/-- An association list with no pair keyed `k` looks `k` up to nothing. -/
theorem lookup_eq_none_of_keys_ne {β : Type} (l : List (String × β))
    (k : String) (h : ∀ p ∈ l, p.1 ≠ k) : l.lookup k = none := by
  induction l with
  | nil => rfl
  | cons p ps ih =>
    obtain ⟨k', v⟩ := p
    have hne : k' ≠ k := h (k', v) (List.mem_cons_self _ _)
    have hk : (k == k') = false := by
      simp only [beq_eq_false_iff_ne, ne_eq]
      exact fun he => hne he.symm
    rw [List.lookup_cons, hk]
    exact ih (fun q hq => h q (List.mem_cons_of_mem _ hq))

/-- A map pair contributed by an entry carries that entry's file name. -/
theorem entryPairOk_key (q : QEntry) (p : String × CommandResult)
    (h : entryPairOk q = some p) : p.1 = q.name := by
  obtain ⟨nm, content, sendO, rmOk⟩ := q
  cases content with
  | none => simp [entryPairOk] at h
  | some raw =>
    simp only [entryPairOk, Option.map_some'] at h
    injection h with h'
    rw [← h']

/-- A `remove_file` call contributed by an entry names that entry's file. -/
theorem entryRemoveCallsOk_key (q : QEntry) :
    ∀ n ∈ entryRemoveCallsOk q, n = q.name := by
  intro n hn
  obtain ⟨nm, content, sendO, rmOk⟩ := q
  cases content <;> simp_all [entryRemoveCallsOk]

/-- Closed form of the loop in a pass where every send that is reached
succeeds: the pass visits every entry, performs the per-entry effects, and
returns the map of the read-ok entries. -/
theorem queue_loop_eq_of_all_ok (session : PtySession)
    (hw : session.pty_writer = some ()) :
    ∀ entries : List QEntry,
      (∀ qe ∈ entries, ∀ raw, qe.content = some raw →
        qe.sendOutcome = .ok) →
      process_queue_loop session entries =
        ({ logs := entries.flatMap entryLogsOk
           removed := entries.flatMap entryRemovedOk
           removeCalls := entries.flatMap entryRemoveCallsOk },
         .ok (entries.filterMap entryPairOk)) := by
  intro entries
  induction entries with
  | nil => intro _; rfl
  | cons x xs ih =>
    intro hall
    have hxs : ∀ qe ∈ xs, ∀ raw, qe.content = some raw →
        qe.sendOutcome = SendOutcome.ok :=
      fun q hq => hall q (List.mem_cons_of_mem _ hq)
    obtain ⟨nm, content, sendO, rmOk⟩ := x
    cases content with
    | none =>
      simp only [process_queue_loop, List.flatMap_cons, List.filterMap_cons]
      rw [ih hxs]
      simp [entryLogsOk, entryRemovedOk, entryRemoveCallsOk, entryPairOk]
    | some raw =>
      have hok : sendO = SendOutcome.ok :=
        hall ⟨nm, some raw, sendO, rmOk⟩ (List.mem_cons_self _ _) raw rfl
      subst hok
      have hsend : (session.send_input (rustTrim raw ++ "\n")
          SendOutcome.ok).1 = Except.ok () := by
        unfold PtySession.send_input
        rw [hw]
      simp only [process_queue_loop, List.flatMap_cons, List.filterMap_cons]
      rw [hsend, ih hxs]
      cases rmOk <;>
        simp [entryLogsOk, entryRemovedOk, entryRemoveCallsOk, entryPairOk,
          Except.map]

/-- With distinct file names, the all-sends-succeed map answers for a file
exactly its own contribution: the success result when its read succeeded,
nothing when it failed. -/
theorem lookup_entryPairs (entries : List QEntry) (qe : QEntry)
    (hnodup : (entries.map QEntry.name).Nodup) (hmem : qe ∈ entries) :
    (entries.filterMap entryPairOk).lookup qe.name =
      (entryPairOk qe).map Prod.snd := by
  induction entries with
  | nil => cases hmem
  | cons x xs ih =>
    have hcons : (∀ q ∈ xs, ¬ q.name = x.name) ∧
        (xs.map QEntry.name).Nodup := by
      simpa using hnodup
    rw [List.filterMap_cons]
    rcases List.mem_cons.mp hmem with rfl | hxs
    · cases hpx : entryPairOk qe with
      | none =>
        show List.lookup qe.name (List.filterMap entryPairOk xs) =
          Option.map Prod.snd none
        apply lookup_eq_none_of_keys_ne
        intro p hp
        rcases List.mem_filterMap.mp hp with ⟨q, hq, hpq⟩
        rw [entryPairOk_key q p hpq]
        exact hcons.1 q hq
      | some p =>
        obtain ⟨p1, p2⟩ := p
        have hp1 : p1 = qe.name := entryPairOk_key qe (p1, p2) hpx
        subst hp1
        show List.lookup qe.name
            ((qe.name, p2) :: List.filterMap entryPairOk xs) =
          Option.map Prod.snd (some (qe.name, p2))
        simp [List.lookup_cons]
    · have hxq : ¬ qe.name = x.name := hcons.1 qe hxs
      cases hpx : entryPairOk x with
      | none => exact ih hcons.2 hxs
      | some p =>
        obtain ⟨p1, p2⟩ := p
        have hp1 : p1 = x.name := entryPairOk_key x (p1, p2) hpx
        subst hp1
        have hk : (qe.name == x.name) = false := by
          simpa using hxq
        show List.lookup qe.name
            ((x.name, p2) :: List.filterMap entryPairOk xs) =
          Option.map Prod.snd (entryPairOk qe)
        rw [List.lookup_cons, hk]
        exact ih hcons.2 hxs

/-- With distinct file names, a file whose own contribution to a
name-keyed effect list is empty does not occur in the concatenation. -/
theorem flatMap_names_notin (entries : List QEntry)
    (f : QEntry → List String)
    (hkey : ∀ q ∈ entries, ∀ n ∈ f q, n = q.name) (qe : QEntry)
    (hnodup : (entries.map QEntry.name).Nodup) (hmem : qe ∈ entries)
    (hself : f qe = []) : qe.name ∉ entries.flatMap f := by
  intro hin
  rcases List.mem_flatMap.mp hin with ⟨q, hq, hname⟩
  have h1 : qe.name = q.name := hkey q hq _ hname
  have h2 : q = qe := List.inj_on_of_nodup_map hnodup hq hmem h1.symm
  rw [h2, hself] at hname
  cases hname

/-- Shape of the loop when the first send failure occurs: every earlier
entry is processed normally, the failing entry logs only its processing
line, the loop stops (the `?` at queue.rs line 86 returns from
`process_queue`), and the entries after it contribute nothing. -/
theorem queue_loop_abort (session : PtySession)
    (hw : session.pty_writer = some ()) :
    ∀ (pre : List QEntry) (qe : QEntry) (post : List QEntry) (raw : String),
      (∀ q ∈ pre, ∀ raw', q.content = some raw' → q.sendOutcome = .ok) →
      qe.content = some raw → qe.sendOutcome ≠ .ok →
      ∃ msg, process_queue_loop session (pre ++ qe :: post) =
        ({ logs := pre.flatMap entryLogsOk ++
             [.processing qe.name (rustTrim raw)]
           removed := pre.flatMap entryRemovedOk
           removeCalls := pre.flatMap entryRemoveCallsOk },
         .error msg) := by
  intro pre
  induction pre with
  | nil =>
    intro qe post raw _ hc hs
    obtain ⟨nm, content, sendO, rmOk⟩ := qe
    simp only at hc
    subst hc
    cases sendO with
    | ok => exact absurd rfl hs
    | writeErr e =>
      refine ⟨"Failed to write input to PTY parent: " ++ e, ?_⟩
      have hsend : (session.send_input (rustTrim raw ++ "\n")
          (SendOutcome.writeErr e)).1 =
          Except.error ("Failed to write input to PTY parent: " ++ e) := by
        unfold PtySession.send_input
        rw [hw]
      simp only [List.nil_append, process_queue_loop]
      rw [hsend]
      rfl
    | flushErr e =>
      refine ⟨"Failed to flush PTY writer: " ++ e, ?_⟩
      have hsend : (session.send_input (rustTrim raw ++ "\n")
          (SendOutcome.flushErr e)).1 =
          Except.error ("Failed to flush PTY writer: " ++ e) := by
        unfold PtySession.send_input
        rw [hw]
      simp only [List.nil_append, process_queue_loop]
      rw [hsend]
      rfl
  | cons x pre' ih =>
    intro qe post raw hpre hc hs
    have hpre' : ∀ q ∈ pre', ∀ raw', q.content = some raw' →
        q.sendOutcome = SendOutcome.ok :=
      fun q hq => hpre q (List.mem_cons_of_mem _ hq)
    obtain ⟨msg, habort⟩ := ih qe post raw hpre' hc hs
    refine ⟨msg, ?_⟩
    have hx := fun raw' h => hpre x (List.mem_cons_self _ _) raw' h
    obtain ⟨nm, content, sendO, rmOk⟩ := x
    cases content with
    | none =>
      simp only [List.cons_append, process_queue_loop, List.flatMap_cons,
        List.append_eq]
      rw [habort]
      simp [entryLogsOk, entryRemovedOk, entryRemoveCallsOk]
    | some raw' =>
      have hok : sendO = SendOutcome.ok := hx raw' rfl
      subst hok
      have hsend : (session.send_input (rustTrim raw' ++ "\n")
          SendOutcome.ok).1 = Except.ok () := by
        unfold PtySession.send_input
        rw [hw]
      simp only [List.cons_append, process_queue_loop, List.flatMap_cons,
        List.append_eq]
      rw [hsend, habort]
      cases rmOk <;>
        simp [entryLogsOk, entryRemovedOk, entryRemoveCallsOk, Except.map]

/-- A live session and the queue files used by the C7 statements. -/
def qSessionOk : PtySession :=
  PtySession.make "tp-1" "/bin/bash" 80 24 .running

/-- Queue entry whose `read_to_string` fails. -/
def qEntryReadFail : QEntry :=
  { name := "a.cmd", content := none, sendOutcome := .ok, removeOk := true }

/-- Queue entry that is read and sent successfully. -/
def qEntrySendOk : QEntry :=
  { name := "b.cmd", content := some "ls\n", sendOutcome := .ok
    removeOk := true }

/-- Queue entry whose send fails with a non-recoverable write error. -/
def qEntrySendFail : QEntry :=
  { name := "c.cmd", content := some "pwd", sendOutcome := .writeErr "broken pipe"
    removeOk := true }

/-- C7 counterexample: the claim says a file whose read fails gets the error
logged *and a failure result recorded in the returned map*, the map covering
every file in the directory.  The code's read-error arm (queue.rs lines
126-130) only logs: on a directory holding exactly one unreadable file, the
pass returns an empty map — no entry for the file at all, and the file is
left untouched. -/
theorem c7_read_failure_unrecorded :
    process_queue qSessionOk true [qEntryReadFail] =
      ({ logs := [QLog.readError "a.cmd"], removed := [], removeCalls := [] },
       Except.ok []) := rfl

/-- C7 amended: each file whose content is read and whose command is sent
successfully is deleted (`remove_file` called; completion logged when the
removal succeeds) and recorded as a success entry in the returned map; a
file whose read fails has the error logged and is left in place, but no
result is recorded for it; a file whose send fails aborts the pass at that
point — `process_queue` returns the send error, nothing is logged or
recorded for the failure, the file is not removed, and the later entries
are never visited — so only when no send fails does the pass complete,
returning a map that covers exactly the files whose read succeeded. -/
theorem c7_single_pass (session : PtySession) (entries : List QEntry)
    (hnodup : (entries.map QEntry.name).Nodup)
    (hw : session.pty_writer = some ()) :
    ((∀ qe ∈ entries, ∀ raw, qe.content = some raw →
        qe.sendOutcome = .ok) →
      ∃ m, (process_queue session true entries).2 = .ok m ∧
        ∀ qe ∈ entries,
          (qe.content = none →
            m.lookup qe.name = none ∧
            QLog.readError qe.name ∈
              (process_queue session true entries).1.logs ∧
            qe.name ∉ (process_queue session true entries).1.removeCalls) ∧
          (∀ raw, qe.content = some raw →
            m.lookup qe.name =
              some { output := "Command sent to shell", success := true } ∧
            qe.name ∈ (process_queue session true entries).1.removeCalls ∧
            (qe.removeOk = true →
              qe.name ∈ (process_queue session true entries).1.removed ∧
              QLog.completed qe.name ∈
                (process_queue session true entries).1.logs))) ∧
    (∀ pre qe post raw, entries = pre ++ qe :: post →
      (∀ q ∈ pre, ∀ raw', q.content = some raw' → q.sendOutcome = .ok) →
      qe.content = some raw → qe.sendOutcome ≠ .ok →
      ∃ msg, (process_queue session true entries).2 = Except.error msg ∧
        (process_queue session true entries).1.logs =
          pre.flatMap entryLogsOk ++
            [.processing qe.name (rustTrim raw)] ∧
        (process_queue session true entries).1.removeCalls =
          pre.flatMap entryRemoveCallsOk ∧
        qe.name ∉ (process_queue session true entries).1.removeCalls) := by
  have hpq : process_queue session true entries =
      process_queue_loop session entries := rfl
  constructor
  · intro hall
    rw [hpq, queue_loop_eq_of_all_ok session hw entries hall]
    refine ⟨entries.filterMap entryPairOk, rfl, ?_⟩
    intro qe hmem
    have hlook := lookup_entryPairs entries qe hnodup hmem
    constructor
    · intro hc
      refine ⟨?_, ?_, ?_⟩
      · rw [hlook]
        simp [entryPairOk, hc]
      · exact List.mem_flatMap.mpr ⟨qe, hmem, by simp [entryLogsOk, hc]⟩
      · exact flatMap_names_notin entries entryRemoveCallsOk
          (fun q _ => entryRemoveCallsOk_key q) qe hnodup hmem
          (by simp [entryRemoveCallsOk, hc])
    · intro raw hc
      refine ⟨?_, ?_, ?_⟩
      · rw [hlook]
        simp [entryPairOk, hc]
      · exact List.mem_flatMap.mpr ⟨qe, hmem,
          by simp [entryRemoveCallsOk, hc]⟩
      · intro hro
        constructor
        · exact List.mem_flatMap.mpr ⟨qe, hmem,
            by simp [entryRemovedOk, hc, hro]⟩
        · exact List.mem_flatMap.mpr ⟨qe, hmem,
            by simp [entryLogsOk, hc, hro]⟩
  · intro pre qe post raw heq hpre hc hs
    subst heq
    obtain ⟨msg, habort⟩ := queue_loop_abort session hw pre qe post raw
      hpre hc hs
    rw [hpq, habort]
    refine ⟨msg, rfl, rfl, rfl, ?_⟩
    intro hin
    rcases List.mem_flatMap.mp hin with ⟨q, hq, hn⟩
    have hqn : qe.name = q.name := entryRemoveCallsOk_key q _ hn
    rw [List.map_append] at hnodup
    exact List.disjoint_of_nodup_append hnodup
      (List.mem_map.mpr ⟨q, hq, hqn.symm⟩)
      (List.mem_map.mpr ⟨qe, List.mem_cons_self _ _, rfl⟩)

/-- Witness for C7's amended theorem: on a two-file directory where one
read fails and one file goes through, the returned map has no entry for
the unreadable file and a success entry for the delivered one, which is
removed; and a pass over a single file whose send fails returns Err. -/
theorem c7_single_pass_witness :
    (∃ m, (process_queue qSessionOk true
        [qEntryReadFail, qEntrySendOk]).2 = .ok m ∧
      m.lookup "a.cmd" = none ∧
      m.lookup "b.cmd" =
        some { output := "Command sent to shell", success := true }) ∧
    "b.cmd" ∈ (process_queue qSessionOk true
      [qEntryReadFail, qEntrySendOk]).1.removed ∧
    (∃ msg, (process_queue qSessionOk true [qEntrySendFail]).2 =
      Except.error msg) := by
  have hall : ∀ qe ∈ [qEntryReadFail, qEntrySendOk], ∀ raw,
      qe.content = some raw → qe.sendOutcome = SendOutcome.ok := by
    intro q hq raw hraw
    rcases List.mem_cons.mp hq with rfl | hq2
    · rfl
    · rcases List.mem_cons.mp hq2 with rfl | hq3
      · rfl
      · cases hq3
  obtain ⟨m, hm, hper⟩ :=
    (c7_single_pass qSessionOk [qEntryReadFail, qEntrySendOk]
      (by decide) rfl).1 hall
  refine ⟨⟨m, hm, ?_, ?_⟩, ?_, ?_⟩
  · exact ((hper qEntryReadFail (by decide)).1 rfl).1
  · exact (((hper qEntrySendOk (by decide)).2 "ls\n" rfl)).1
  · exact ((((hper qEntrySendOk (by decide)).2 "ls\n" rfl)).2.2 rfl).1
  · obtain ⟨msg, hmsg, -⟩ :=
      (c7_single_pass qSessionOk [qEntrySendFail] (by decide) rfl).2
        [] qEntrySendFail [] "pwd" rfl
        (fun q hq => absurd hq (List.not_mem_nil q)) rfl (by decide)
    exact ⟨msg, hmsg⟩

end TypePipe
